import Mathlib

/-!
Shallow embedding of the simple-redis server (RESP codec, command pipeline and
in-memory backend) for checking the specification's claims against the code.

Conventions of the embedding:

* Bytes are `Nat` values (0..255) and byte buffers are `List Nat`; the front of
  the list is the front of the `BytesMut` buffer.
* Rust `String` payloads (simple strings, simple errors, store keys and fields)
  are modelled by their UTF-8 byte sequences.
* A decoder with the Rust signature `fn decode(buf: &mut BytesMut) -> Result<T, E>`
  becomes a function `Bytes → DResult T` returning the value or error together
  with the buffer contents it leaves behind; `DResult.panic` models a Rust
  panic (out-of-range `split_to`, `todo!()`, `unwrap()` on `Err`).
* The two codec generations present in the repository (`resp/decode.rs` +
  `resp/encode.rs`, and the per-type files `resp/bulk_string.rs`,
  `resp/array.rs`, ...) have textually identical bodies at every function the
  claims cite; the embedding follows those shared bodies.
* Error message payloads carried by the Rust error enums are elided: control
  flow only ever branches on the variant, never on the message text.
* The `f64` payload of a Double frame is modelled by the byte text that Rust's
  `{:+e}` formatting produces for it (`RespFloat.text`); numeric normalisation
  performed by `str::parse::<f64>` is not modelled, and no claim depends on the
  numeric value of a Double payload.
-/

/-- Byte buffers: the contents of a `BytesMut` (or `Vec<u8>`), front first. -/
abbrev Bytes := List Nat

/-- The two-byte terminator `\r\n`. -/
def CRLF : Bytes := [13, 10]

/-- Decimal digits of a natural number, as ASCII bytes (Rust `{}` on unsigned). -/
def natToDigits (n : Nat) : Bytes := (Nat.toDigits 10 n).map Char.toNat

/-- Decimal rendering of an `i64` (Rust `{}` formatting: optional minus, digits). -/
def intToDigits (n : Int) : Bytes :=
  if n < 0 then 45 :: natToDigits n.natAbs else natToDigits n.toNat

/-- Whether a byte is an ASCII decimal digit. -/
def isDigitByte (c : Nat) : Bool := 48 ≤ c ∧ c ≤ 57

/-- ASCII whitespace test used to model `str::trim` on the ASCII payloads the
decoder trims (the wider Unicode whitespace set is never exercised: non-ASCII
whitespace bytes would already fail the digit / `t` / `f` checks that follow). -/
def isWsByte (c : Nat) : Bool := c = 32 ∨ c = 9 ∨ c = 10 ∨ c = 13

/-- Model of `str::trim`: drop leading and trailing whitespace. -/
def trimBytes (s : Bytes) : Bytes :=
  ((s.dropWhile isWsByte).reverse.dropWhile isWsByte).reverse

/-- ASCII lowercasing of a byte string (`[u8]::to_ascii_lowercase`). -/
def asciiLowercase (b : Bytes) : Bytes :=
  b.map (fun c => if 65 ≤ c ∧ c ≤ 90 then c + 32 else c)

/-- Accumulate decimal digits; fails on the first non-digit byte. -/
def digitsToNat : Bytes → Nat → Option Nat
  | [], acc => some acc
  | c :: rest, acc =>
    if isDigitByte c then digitsToNat rest (acc * 10 + (c - 48)) else none

/-- Model of `str::parse::<usize>` on a byte string: optional `+` sign, one or
more ASCII digits, 64-bit overflow check. -/
def parseUsize (s : Bytes) : Option Nat :=
  let t := match s with
    | 43 :: rest => rest
    | _ => s
  match t with
  | [] => none
  | _ =>
    match digitsToNat t 0 with
    | some v => if v < 2 ^ 64 then some v else none
    | none => none

/-- Model of `str::parse::<i64>`: optional sign, digits, 64-bit bounds. -/
def parseI64 (s : Bytes) : Option Int :=
  match s with
  | 43 :: rest =>
    match rest with
    | [] => none
    | _ =>
      match digitsToNat rest 0 with
      | some v => if v ≤ 2 ^ 63 - 1 then some (Int.ofNat v) else none
      | none => none
  | 45 :: rest =>
    match rest with
    | [] => none
    | _ =>
      match digitsToNat rest 0 with
      | some v => if v ≤ 2 ^ 63 then some (-(Int.ofNat v)) else none
      | none => none
  | _ =>
    match s with
    | [] => none
    | _ =>
      match digitsToNat s 0 with
      | some v => if v ≤ 2 ^ 63 - 1 then some (Int.ofNat v) else none
      | none => none

/-- Whether a byte is a UTF-8 continuation byte (`0x80..=0xBF`). -/
def utf8ContOk (c : Nat) : Bool := 128 ≤ c ∧ c ≤ 191

/-- Model of `str::from_utf8(..).is_ok()` / `String::from_utf8(..).is_ok()`:
strict UTF-8 validity (no overlong forms, no surrogates, max U+10FFFF). -/
def isValidUtf8 : Bytes → Bool
  | [] => true
  | c1 :: rest =>
    if c1 ≤ 0x7F then isValidUtf8 rest
    else if 0xC2 ≤ c1 ∧ c1 ≤ 0xDF then
      match rest with
      | c2 :: rest2 => utf8ContOk c2 && isValidUtf8 rest2
      | [] => false
    else if c1 = 0xE0 then
      match rest with
      | c2 :: c3 :: rest3 =>
        (decide (0xA0 ≤ c2 ∧ c2 ≤ 0xBF)) && utf8ContOk c3 && isValidUtf8 rest3
      | _ => false
    else if (0xE1 ≤ c1 ∧ c1 ≤ 0xEC) ∨ c1 = 0xEE ∨ c1 = 0xEF then
      match rest with
      | c2 :: c3 :: rest3 => utf8ContOk c2 && utf8ContOk c3 && isValidUtf8 rest3
      | _ => false
    else if c1 = 0xED then
      match rest with
      | c2 :: c3 :: rest3 =>
        (decide (0x80 ≤ c2 ∧ c2 ≤ 0x9F)) && utf8ContOk c3 && isValidUtf8 rest3
      | _ => false
    else if c1 = 0xF0 then
      match rest with
      | c2 :: c3 :: c4 :: rest4 =>
        (decide (0x90 ≤ c2 ∧ c2 ≤ 0xBF)) && utf8ContOk c3 && utf8ContOk c4 && isValidUtf8 rest4
      | _ => false
    else if 0xF1 ≤ c1 ∧ c1 ≤ 0xF3 then
      match rest with
      | c2 :: c3 :: c4 :: rest4 =>
        utf8ContOk c2 && utf8ContOk c3 && utf8ContOk c4 && isValidUtf8 rest4
      | _ => false
    else if c1 = 0xF4 then
      match rest with
      | c2 :: c3 :: c4 :: rest4 =>
        (decide (0x80 ≤ c2 ∧ c2 ≤ 0x8F)) && utf8ContOk c3 && utf8ContOk c4 && isValidUtf8 rest4
      | _ => false
    else false

/-- The three-byte UTF-8 encoding of U+FFFD, the replacement character. -/
def replacementBytes : Bytes := [0xEF, 0xBF, 0xBD]

/-- Repair pass backing `utf8Lossy` on invalid input: copy valid sequences,
replace an invalid leading byte by U+FFFD and continue. Rust's
`from_utf8_lossy` replaces per maximal invalid subpart; the exact granularity
of replacement is approximated here and no claim evaluates it (every claim
exercises the valid-UTF-8 branch of `utf8Lossy`, which is the identity). -/
def utf8LossyRepair : Bytes → Bytes
  | [] => []
  | c1 :: rest =>
    if c1 ≤ 0x7F then c1 :: utf8LossyRepair rest
    else if 0xC2 ≤ c1 ∧ c1 ≤ 0xDF then
      match rest with
      | c2 :: rest2 =>
        if utf8ContOk c2 then c1 :: c2 :: utf8LossyRepair rest2
        else replacementBytes ++ utf8LossyRepair (c2 :: rest2)
      | [] => replacementBytes
    else if 0xE0 ≤ c1 ∧ c1 ≤ 0xEF then
      match rest with
      | c2 :: c3 :: rest3 =>
        if utf8ContOk c2 && utf8ContOk c3 then c1 :: c2 :: c3 :: utf8LossyRepair rest3
        else replacementBytes ++ utf8LossyRepair (c2 :: c3 :: rest3)
      | other => replacementBytes ++ utf8LossyRepair other
    else if 0xF0 ≤ c1 ∧ c1 ≤ 0xF4 then
      match rest with
      | c2 :: c3 :: c4 :: rest4 =>
        if utf8ContOk c2 && utf8ContOk c3 && utf8ContOk c4 then
          c1 :: c2 :: c3 :: c4 :: utf8LossyRepair rest4
        else replacementBytes ++ utf8LossyRepair (c2 :: c3 :: c4 :: rest4)
      | other => replacementBytes ++ utf8LossyRepair other
    else replacementBytes ++ utf8LossyRepair rest
termination_by b => b.length
decreasing_by all_goals (simp [List.length_cons]; try omega)

/-- Model of `String::from_utf8_lossy(..).to_string()`: the identity on valid
UTF-8 (the `Cow::Borrowed` case), repair otherwise. -/
def utf8Lossy (b : Bytes) : Bytes := if isValidUtf8 b then b else utf8LossyRepair b

/-- Skip a run of ASCII digits. -/
def skipDigits : Bytes → Bytes
  | [] => []
  | c :: rest => if isDigitByte c then skipDigits rest else c :: rest

/-- Consume one or more ASCII digits, returning the remainder. -/
def takeDigits1 : Bytes → Option Bytes
  | [] => none
  | c :: rest => if isDigitByte c then some (skipDigits rest) else none

/-- Recogniser for the optional exponent tail of Rust's `f64` grammar followed
by end of input: empty, or `(e|E) sign? digits`. -/
def floatExpTailOk : Bytes → Bool
  | [] => true
  | c :: rest =>
    if c = 101 ∨ c = 69 then
      let rest2 := match rest with
        | 43 :: rr => rr
        | 45 :: rr => rr
        | _ => rest
      match takeDigits1 rest2 with
      | some [] => true
      | _ => false
    else false

/-- Recogniser for the number form of Rust's `f64` grammar:
`digits ('.' digits?)? exp?` or `'.' digits exp?`. -/
def floatNumberOk (t : Bytes) : Bool :=
  match t with
  | 46 :: r =>
    match takeDigits1 r with
    | some rest => floatExpTailOk rest
    | none => false
  | _ =>
    match takeDigits1 t with
    | some rest =>
      match rest with
      | 46 :: r2 => floatExpTailOk (skipDigits r2)
      | _ => floatExpTailOk rest
    | none => false

/-- Recogniser for `str::parse::<f64>` acceptance: optional sign, then
`inf` / `infinity` / `nan` (ASCII case-insensitive) or a number form. -/
def floatTextOk (s : Bytes) : Bool :=
  let t := match s with
    | 43 :: rest => rest
    | 45 :: rest => rest
    | _ => s
  (asciiLowercase t = [105, 110, 102]) ||
  (asciiLowercase t = [105, 110, 102, 105, 110, 105, 116, 121]) ||
  (asciiLowercase t = [110, 97, 110]) ||
  floatNumberOk t

/-- The `f64` payload of a Double frame, represented by the byte text that
Rust's `{:+e}` formatting produces for the value. Distinct finite doubles have
distinct shortest-representation texts, so equality of texts models equality
of the underlying values (bit-distinct NaN payloads are conflated; no claim
depends on them). -/
structure RespFloat where
  text : Bytes
deriving DecidableEq

/-- The RESP frame model: the thirteen variants of the `RespFrame` enum.
`simpleString`/`simpleError` carry the UTF-8 bytes of the Rust `String`
payload, `map` carries the `BTreeMap` entries in sorted key order. -/
inductive RespFrame : Type where
  | simpleString (s : Bytes)
  | simpleError (s : Bytes)
  | bulkError (b : Bytes)
  | integer (n : Int)
  | bulkString (b : Bytes)
  | nullBulkString
  | array (elems : List RespFrame)
  | nullArray
  | null
  | boolean (b : Bool)
  | double (d : RespFloat)
  | map (entries : List (Bytes × RespFrame))
  | set (elems : List RespFrame)

/-- The `RespDecodeError` enum. Message payloads are elided: the code only
ever branches on the variant. -/
inductive RespDecodeError where
  | invalidFrame
  | invalidFrameType
  | invalidFrameLength
  | notComplete
  | parseIntError
deriving DecidableEq

/-- Outcome of one decoder call on a mutable buffer. `ok v rest` and
`err e rest` carry the buffer contents left behind by the call (the Rust
decoders mutate `buf` in place and do not restore it on error); `panic`
models a Rust panic such as an out-of-range `BytesMut::split_to`. -/
inductive DResult (α : Type) where
  | ok (val : α) (rest : Bytes)
  | err (e : RespDecodeError) (rest : Bytes)
  | panic

/-- Map the decoded value, preserving error and panic outcomes. -/
def DResult.mapVal : DResult α → (α → β) → DResult β
  | .ok v r, f => .ok (f v) r
  | .err e r, _ => .err e r
  | .panic, _ => .panic

/-- `find_nth_crlf`: index of the `nth` `\r\n` pair, scanning adjacent byte
pairs from the front (`for i in 0..buf.len() - 1`). -/
def findCrlfAux : Bytes → Nat → Nat → Option Nat
  | b1 :: b2 :: rest, i, nth =>
    if b1 = 13 ∧ b2 = 10 then
      if nth = 1 then some i else findCrlfAux (b2 :: rest) (i + 1) (nth - 1)
    else findCrlfAux (b2 :: rest) (i + 1) nth
  | _, _, _ => none

/-- `find_nth_crlf(buf, nth)`. -/
def findNthCrlf (buf : Bytes) (nth : Nat) : Option Nat := findCrlfAux buf 0 nth

/-- `extract_simple_frame_data`: check the one-byte prefix, then locate the
first CRLF; `NotComplete` when no CRLF is buffered yet. Mutates nothing. -/
def extractSimpleFrameData (buf : Bytes) (fb : Nat) : Except RespDecodeError Nat :=
  if buf.take 1 = [fb] then
    match findNthCrlf buf 1 with
    | some pos => .ok pos
    | none => .error .notComplete
  else .error .invalidFrameType

/-- `parse_length`: header end position and the header parsed as `usize`
(`buf[1..pos]`, the prefix being one byte). Mutates nothing. -/
def parseLength (buf : Bytes) (fb : Nat) : Except RespDecodeError (Nat × Nat) :=
  match extractSimpleFrameData buf fb with
  | .error e => .error e
  | .ok pos =>
    match parseUsize ((buf.drop 1).take (pos - 1)) with
    | some len => .ok (pos, len)
    | none => .error .parseIntError

/-- `RespDecode for RespSimpleString`: find CRLF, split it off, and take the
payload `data[1..pos]` through `from_utf8_lossy`. -/
def decodeSimpleString (buf : Bytes) : DResult Bytes :=
  match extractSimpleFrameData buf 43 with
  | .error e => .err e buf
  | .ok pos => .ok (utf8Lossy ((buf.drop 1).take (pos - 1))) (buf.drop (pos + 2))

/-- `RespDecode for RespSimpleError`: as simple string, prefix `-`. -/
def decodeSimpleError (buf : Bytes) : DResult Bytes :=
  match extractSimpleFrameData buf 45 with
  | .error e => .err e buf
  | .ok pos => .ok (utf8Lossy ((buf.drop 1).take (pos - 1))) (buf.drop (pos + 2))

/-- `RespDecode for RespInteger`: split past the CRLF first, then trim and
parse; a parse failure therefore leaves the buffer already advanced. -/
def decodeInteger (buf : Bytes) : DResult Int :=
  match extractSimpleFrameData buf 58 with
  | .error e => .err e buf
  | .ok pos =>
    match parseI64 (trimBytes ((buf.drop 1).take (pos - 1))) with
    | some n => .ok n (buf.drop (pos + 2))
    | none => .err .parseIntError (buf.drop (pos + 2))

/-- `RespDecode for bool`: peek the payload without splitting; on `t`/`f`
advance exactly 4 bytes (the code advances 4 regardless of where the CRLF
was found), otherwise fail without consuming. -/
def decodeBool (buf : Bytes) : DResult Bool :=
  match extractSimpleFrameData buf 35 with
  | .error e => .err e buf
  | .ok pos =>
    let s := trimBytes ((buf.drop 1).take (pos - 1))
    if s = [116] then .ok true (buf.drop 4)
    else if s = [102] then .ok false (buf.drop 4)
    else .err .invalidFrame buf

/-- `RespDecode for f64`: split past the CRLF, trim, parse. The parsed value
is modelled by its trimmed source text (see `RespFloat`). -/
def decodeDouble (buf : Bytes) : DResult RespFloat :=
  match extractSimpleFrameData buf 44 with
  | .error e => .err e buf
  | .ok pos =>
    let t := trimBytes ((buf.drop 1).take (pos - 1))
    if floatTextOk t then .ok ⟨t⟩ (buf.drop (pos + 2))
    else .err .parseIntError (buf.drop (pos + 2))

/-- The five bytes `$-1\r\n`. -/
def nullBulkStringBytes : Bytes := [36, 45, 49, 13, 10]

/-- The five bytes `*-1\r\n`. -/
def nullArrayBytes : Bytes := [42, 45, 49, 13, 10]

/-- The three bytes `_\r\n`. -/
def nullFrameBytes : Bytes := [95, 13, 10]

/-- `RespDecode for RespNullBulkString`: succeeds only when the whole buffer
equals `$-1\r\n` (`if buf == "$-1\r\n"`), advancing 5 bytes; anything else —
including a buffer that merely begins with those five bytes — is
`InvalidFrame` with the buffer untouched. -/
def decodeNullBulkString (buf : Bytes) : DResult Unit :=
  if buf = nullBulkStringBytes then .ok () (buf.drop 5)
  else .err .invalidFrame buf

/-- `RespDecode for RespNullArray`: whole-buffer comparison against `*-1\r\n`. -/
def decodeNullArray (buf : Bytes) : DResult Unit :=
  if buf = nullArrayBytes then .ok () (buf.drop 5)
  else .err .invalidFrame buf

/-- `RespDecode for RespNull`: whole-buffer comparison against `_\r\n`. -/
def decodeNull (buf : Bytes) : DResult Unit :=
  if buf = nullFrameBytes then .ok () (buf.drop 3)
  else .err .invalidFrame buf

/-- `RespDecode for RespBulkString`: parse the length header, advance past it,
then `split_to(length + 2)` — which panics when fewer than `length + 2` bytes
remain — and check the trailing CRLF. A failed CRLF check reports
`InvalidFrame` with the buffer already advanced past the split. -/
def decodeBulkString (buf : Bytes) : DResult Bytes :=
  match parseLength buf 36 with
  | .error e => .err e buf
  | .ok (pos, len) =>
    let afterHeader := buf.drop (pos + 2)
    if len + 2 ≤ afterHeader.length then
      let chunk := afterHeader.take (len + 2)
      let rest := afterHeader.drop (len + 2)
      if chunk.drop len = CRLF then .ok (chunk.take len) rest
      else .err .invalidFrame rest
    else .panic

/-- `RespDecode for RespBulkError` (per `resp/decode.rs`): identical to the
bulk string decoder with prefix `!`. -/
def decodeBulkError (buf : Bytes) : DResult Bytes :=
  match parseLength buf 33 with
  | .error e => .err e buf
  | .ok (pos, len) =>
    let afterHeader := buf.drop (pos + 2)
    if len + 2 ≤ afterHeader.length then
      let chunk := afterHeader.take (len + 2)
      let rest := afterHeader.drop (len + 2)
      if chunk.drop len = CRLF then .ok (chunk.take len) rest
      else .err .invalidFrame rest
    else .panic

/-- Strict lexicographic order on byte strings: the order in which Rust's
`BTreeMap<String, _>` keeps `String` keys (byte-wise comparison). -/
def bytesLt : Bytes → Bytes → Bool
  | [], [] => false
  | [], _ :: _ => true
  | _ :: _, [] => false
  | a :: as, b :: bs => if a < b then true else if a = b then bytesLt as bs else false

/-- `BTreeMap::insert` on a key-sorted association list: place the new entry
at its ordered position, replacing an existing entry with an equal key. -/
def btreeInsert : List (Bytes × RespFrame) → Bytes → RespFrame → List (Bytes × RespFrame)
  | [], k, v => [(k, v)]
  | (k1, v1) :: rest, k, v =>
    if bytesLt k k1 then (k, v) :: (k1, v1) :: rest
    else if k = k1 then (k, v) :: rest
    else (k1, v1) :: btreeInsert rest k v

/-- One pass of the `for _ in 0..length` loop shared by the `RespArray` and
`RespSet` decoders: decode `count` child frames with the given child decoder,
threading the buffer; the first child error or panic aborts the parent with
whatever the buffer holds at that point (nothing is restored). -/
def decodeAggElems (dec : Bytes → DResult RespFrame) : Nat → Bytes → DResult (List RespFrame)
  | 0, buf => .ok [] buf
  | n + 1, buf =>
    match dec buf with
    | .ok v rest =>
      match decodeAggElems dec n rest with
      | .ok vs rest2 => .ok (v :: vs) rest2
      | .err e r => .err e r
      | .panic => .panic
    | .err e r => .err e r
    | .panic => .panic

/-- The `for _ in 0..length` loop of the `RespMap` decoder: each iteration
decodes a `RespSimpleString` key then a child frame, inserting into the
`BTreeMap` accumulator. -/
def decodeMapPairs (dec : Bytes → DResult RespFrame) :
    Nat → List (Bytes × RespFrame) → Bytes → DResult (List (Bytes × RespFrame))
  | 0, acc, buf => .ok acc buf
  | n + 1, acc, buf =>
    match decodeSimpleString buf with
    | .ok k rest =>
      match dec rest with
      | .ok v rest2 => decodeMapPairs dec n (btreeInsert acc k v) rest2
      | .err e r => .err e r
      | .panic => .panic
    | .err e r => .err e r
    | .panic => .panic

/-- `RespDecode for RespArray` body, parameterised by the child-frame decoder:
parse the `*` length header, advance past it (committing the consumption
immediately), then decode that many children. -/
def decodeArrayWith (dec : Bytes → DResult RespFrame) (buf : Bytes) : DResult (List RespFrame) :=
  match parseLength buf 42 with
  | .error e => .err e buf
  | .ok (pos, len) => decodeAggElems dec len (buf.drop (pos + 2))

/-- `RespDecode for RespSet` body, parameterised by the child-frame decoder. -/
def decodeSetWith (dec : Bytes → DResult RespFrame) (buf : Bytes) : DResult (List RespFrame) :=
  match parseLength buf 126 with
  | .error e => .err e buf
  | .ok (pos, len) => decodeAggElems dec len (buf.drop (pos + 2))

/-- `RespDecode for RespMap` body, parameterised by the child-frame decoder. -/
def decodeMapWith (dec : Bytes → DResult RespFrame) (buf : Bytes) :
    DResult (List (Bytes × RespFrame)) :=
  match parseLength buf 37 with
  | .error e => .err e buf
  | .ok (pos, len) => decodeMapPairs dec len [] (buf.drop (pos + 2))

/-- `RespFrame::decode`: require at least three buffered bytes, then dispatch
on the first byte. For `$` and `*` the null decoder is tried first; its
`NotComplete` would be forwarded (that arm is dead — the null decoders never
produce it) and any other error falls through to the non-null decoder on the
same buffer. The `fuel` argument only bounds the recursion depth through
nested aggregates; every level of nesting consumes a header of at least three
bytes before recursing, so the `buf.length + 2` budget supplied by the
entry-point wrappers below can never be exhausted. -/
def decodeFrame : Nat → Bytes → DResult RespFrame
  | 0, _ => .panic
  | fuel + 1, buf =>
    if buf.length < 3 then .err .notComplete buf
    else
      match buf.head? with
      | some 43 => (decodeSimpleString buf).mapVal .simpleString
      | some 45 => (decodeSimpleError buf).mapVal .simpleError
      | some 33 => (decodeBulkError buf).mapVal .bulkError
      | some 58 => (decodeInteger buf).mapVal .integer
      | some 36 =>
        match decodeNullBulkString buf with
        | .ok _ rest => .ok .nullBulkString rest
        | .err .notComplete r => .err .notComplete r
        | .err _ _ => (decodeBulkString buf).mapVal .bulkString
        | .panic => .panic
      | some 42 =>
        match decodeNullArray buf with
        | .ok _ rest => .ok .nullArray rest
        | .err .notComplete r => .err .notComplete r
        | .err _ _ => (decodeArrayWith (decodeFrame fuel) buf).mapVal .array
        | .panic => .panic
      | some 37 => (decodeMapWith (decodeFrame fuel) buf).mapVal .map
      | some 126 => (decodeSetWith (decodeFrame fuel) buf).mapVal .set
      | some 95 => (decodeNull buf).mapVal (fun _ => .null)
      | some 35 => (decodeBool buf).mapVal .boolean
      | some 44 => (decodeDouble buf).mapVal .double
      | none => .err .notComplete buf
      | some _ => .err .invalidFrame buf

/-- Entry point `RespFrame::decode(buf)`. -/
def RespFrame.decode (buf : Bytes) : DResult RespFrame :=
  decodeFrame (buf.length + 2) buf

/-- Entry point `RespArray::decode(buf)` (the typed decoder the connection
handler's framed codec calls on the request buffer). -/
def RespArray.decode (buf : Bytes) : DResult (List RespFrame) :=
  decodeArrayWith (decodeFrame (buf.length + 2)) buf

/-- Entry point `RespMap::decode(buf)`. -/
def RespMap.decode (buf : Bytes) : DResult (List (Bytes × RespFrame)) :=
  decodeMapWith (decodeFrame (buf.length + 2)) buf

mutual
/-- `RespEncode::encode`: render a frame to bytes. The `Result` the Rust trait
returns is always `Ok`; the failure that actually exists is the
`String::from_utf8(..).unwrap()` panic inside the BulkString and BulkError
encoders on non-UTF-8 payloads, modelled by `none`. A child panic inside an
aggregate propagates (`frame.encode().unwrap()`). -/
def RespFrame.encode : RespFrame → Option Bytes
  | .simpleString s => some (43 :: (s ++ CRLF))
  | .simpleError s => some (45 :: (s ++ CRLF))
  | .bulkError b =>
    if isValidUtf8 b then some (33 :: (natToDigits b.length ++ CRLF ++ b ++ CRLF)) else none
  | .integer n => some (58 :: (intToDigits n ++ CRLF))
  | .bulkString b =>
    if isValidUtf8 b then some (36 :: (natToDigits b.length ++ CRLF ++ b ++ CRLF)) else none
  | .nullBulkString => some nullBulkStringBytes
  | .array elems =>
    (encodeList elems).map (fun body => 42 :: (natToDigits elems.length ++ CRLF ++ body))
  | .nullArray => some nullArrayBytes
  | .null => some nullFrameBytes
  | .boolean b => some (if b then [35, 116, 13, 10] else [35, 102, 13, 10])
  | .double d => some (44 :: (d.text ++ CRLF))
  | .map entries =>
    (encodePairs entries).map (fun body => 37 :: (natToDigits entries.length ++ CRLF ++ body))
  | .set elems =>
    (encodeList elems).map (fun body => 126 :: (natToDigits elems.length ++ CRLF ++ body))

/-- Concatenated encodings of the elements of an aggregate, in order. -/
def encodeList : List RespFrame → Option Bytes
  | [] => some []
  | f :: fs =>
    match RespFrame.encode f, encodeList fs with
    | some a, some b => some (a ++ b)
    | _, _ => none

/-- Concatenated encodings of the `(SimpleString key, value)` entries of a
map, in iteration (sorted) order; the key encoder `+key\r\n` is inlined. -/
def encodePairs : List (Bytes × RespFrame) → Option Bytes
  | [] => some []
  | (k, v) :: rest =>
    match RespFrame.encode v, encodePairs rest with
    | some b, some c => some ((43 :: (k ++ CRLF)) ++ b ++ c)
    | _, _ => none
end

/-- The `CommandError` enum; message payloads elided. `respError` wraps a
decode error (`#[from] RespDecodeError`), `fromUtf8Error` a failed
`String::from_utf8` on a key or field. -/
inductive CommandError where
  | invalidCommand
  | invalidCommandArguments
  | respError (e : RespDecodeError)
  | fromUtf8Error
deriving DecidableEq

/-- Byte string `get`. -/
def nameGet : Bytes := [103, 101, 116]
/-- Byte string `set`. -/
def nameSet : Bytes := [115, 101, 116]
/-- Byte string `hget`. -/
def nameHGet : Bytes := [104, 103, 101, 116]
/-- Byte string `hset`. -/
def nameHSet : Bytes := [104, 115, 101, 116]
/-- Byte string `hgetall`. -/
def nameHGetAll : Bytes := [104, 103, 101, 116, 97, 108, 108]
/-- Byte string `echo`. -/
def nameEcho : Bytes := [101, 99, 104, 111]
/-- Byte string `hmget`. -/
def nameHMGet : Bytes := [104, 109, 103, 101, 116]

/-- Byte string `OK` (payload of the cached `RESP_OK` simple string). -/
def okBytes : Bytes := [79, 75]

/-- Byte string `Unknown command` (payload of `RESP_UNKNOWNN_COMMAND`). -/
def unknownCommandBytes : Bytes :=
  [85, 110, 107, 110, 111, 119, 110, 32, 99, 111, 109, 109, 97, 110, 100]

/-- The typed commands. Keys, fields and the echo payload hold the UTF-8
bytes of the Rust `String` they carry. -/
structure CommandGet where
  key : Bytes

/-- The SET command: key and an arbitrary value frame. -/
structure CommandSet where
  key : Bytes
  value : RespFrame

/-- The HGET command. -/
structure CommandHGet where
  key : Bytes
  field1 : Bytes

/-- The HSET command; its value is always re-wrapped as a BulkString frame. -/
structure CommandHSet where
  key : Bytes
  field1 : Bytes
  value : RespFrame

/-- The HGETALL command; conversion always sets `sort := false`. -/
structure CommandHGetAll where
  key : Bytes
  sort : Bool

/-- The ECHO command. -/
structure CommandEcho where
  value : Bytes

/-- The HMGET command (defined in `cmd/hmap.rs` but absent from the `Command`
enum in `cmd/mod.rs`, exactly as in the source). -/
structure CommandHMGet where
  key : Bytes
  fields : List Bytes

/-- The `Command` enum of `cmd/mod.rs`: Get, Set, HGet, HSet, HGetAll, Echo
and the unknown-command fallback. It has no HMGet variant — faithful to the
source, where `CommandHMGet` exists but is not wired into the enum. -/
inductive Command where
  | get (c : CommandGet)
  | set (c : CommandSet)
  | hget (c : CommandHGet)
  | hset (c : CommandHSet)
  | hgetall (c : CommandHGetAll)
  | echo (c : CommandEcho)
  | unknown

/-- Name-token loop of `validate_command`: element `i` of the array must be a
BulkString whose ASCII-lowercased bytes equal the `i`-th expected token. The
`([], token :: _)` case is unreachable under the length guard (indexing
`value[i]` with `i < names.len() ≤ value.len()` cannot go out of bounds). -/
def checkNames : List RespFrame → List Bytes → Except CommandError Unit
  | _, [] => .ok ()
  | [], _ :: _ => .error .invalidCommand
  | f :: fs, n :: ns =>
    match f with
    | .bulkString cmd =>
      if asciiLowercase cmd = n then checkNames fs ns else .error .invalidCommand
    | _ => .error .invalidCommand

/-- `validate_command(value, command_names, n_args)`: arity check first
(`InvalidCommandArguments`), then the lowercased name-token comparison
(`InvalidCommand`). -/
def validateCommand (value : List RespFrame) (names : List Bytes) (nArgs : Nat) :
    Except CommandError Unit :=
  if value.length = names.length + nArgs then checkNames value names
  else .error .invalidCommandArguments

/-- `extract_args(value, command_length)`: the elements after the name tokens. -/
def extractArgs (value : List RespFrame) (commandLength : Nat) : List RespFrame :=
  value.drop commandLength

/-- `TryFrom<RespArray> for CommandGet`: validate `get` with one argument,
which must be a BulkString; its bytes pass through `from_utf8_lossy`. -/
def CommandGet.tryFrom (value : List RespFrame) : Except CommandError CommandGet :=
  match validateCommand value [nameGet] 1 with
  | .error e => .error e
  | .ok _ =>
    match (extractArgs value 1).head? with
    | some (.bulkString key) => .ok ⟨utf8Lossy key⟩
    | _ => .error .invalidCommandArguments

/-- `TryFrom<RespArray> for CommandSet`: validate `set` with two arguments;
the key must be a BulkString (checked UTF-8 via `String::from_utf8(..)?`),
the value may be any frame. -/
def CommandSet.tryFrom (value : List RespFrame) : Except CommandError CommandSet :=
  match validateCommand value [nameSet] 2 with
  | .error e => .error e
  | .ok _ =>
    match (extractArgs value 1).head?, ((extractArgs value 1).drop 1).head? with
    | some (.bulkString key), some v =>
      if isValidUtf8 key then .ok ⟨key, v⟩ else .error .fromUtf8Error
    | _, _ => .error .invalidCommandArguments

/-- `TryFrom<RespArray> for CommandHGet`: validate `hget` with two BulkString
arguments, both checked UTF-8. -/
def CommandHGet.tryFrom (value : List RespFrame) : Except CommandError CommandHGet :=
  match validateCommand value [nameHGet] 2 with
  | .error e => .error e
  | .ok _ =>
    match (extractArgs value 1).head?, ((extractArgs value 1).drop 1).head? with
    | some (.bulkString key), some (.bulkString f) =>
      if isValidUtf8 key then
        if isValidUtf8 f then .ok ⟨key, f⟩ else .error .fromUtf8Error
      else .error .fromUtf8Error
    | _, _ => .error .invalidCommandArguments

/-- `TryFrom<RespArray> for CommandHSet`: validate `hset` with three
BulkString arguments; key and field checked UTF-8, the value re-wrapped as a
BulkString frame. -/
def CommandHSet.tryFrom (value : List RespFrame) : Except CommandError CommandHSet :=
  match validateCommand value [nameHSet] 3 with
  | .error e => .error e
  | .ok _ =>
    match (extractArgs value 1).head?, ((extractArgs value 1).drop 1).head?,
        ((extractArgs value 1).drop 2).head? with
    | some (.bulkString key), some (.bulkString f), some (.bulkString v) =>
      if isValidUtf8 key then
        if isValidUtf8 f then .ok ⟨key, f, .bulkString v⟩ else .error .fromUtf8Error
      else .error .fromUtf8Error
    | _, _, _ => .error .invalidCommandArguments

/-- `TryFrom<RespArray> for CommandHGetAll`: validate `hgetall` with one
BulkString argument; `sort` is always `false`. -/
def CommandHGetAll.tryFrom (value : List RespFrame) : Except CommandError CommandHGetAll :=
  match validateCommand value [nameHGetAll] 1 with
  | .error e => .error e
  | .ok _ =>
    match (extractArgs value 1).head? with
    | some (.bulkString key) =>
      if isValidUtf8 key then .ok ⟨key, false⟩ else .error .fromUtf8Error
    | _ => .error .invalidCommandArguments

/-- `TryFrom<RespArray> for CommandEcho`: validate `echo` with one BulkString
argument, taken through `from_utf8_lossy`. -/
def CommandEcho.tryFrom (value : List RespFrame) : Except CommandError CommandEcho :=
  match validateCommand value [nameEcho] 1 with
  | .error e => .error e
  | .ok _ =>
    match (extractArgs value 1).head? with
    | some (.bulkString v) => .ok ⟨utf8Lossy v⟩
    | _ => .error .invalidCommandArguments

/-- Field-collection loop of `CommandHMGet::try_from`: BulkString fields are
pushed through `String::from_utf8(..).unwrap()` — a panic (`none`) on
non-UTF-8 bytes — and frames of any other type are merely logged and
skipped. -/
def collectHMGetFields : List RespFrame → Option (List Bytes)
  | [] => some []
  | .bulkString f :: rest =>
    if isValidUtf8 f then (collectHMGetFields rest).map (fun fs => f :: fs) else none
  | _ :: rest => collectHMGetFields rest

/-- `TryFrom<RespArray> for CommandHMGet`: the expected argument count is
taken from the array itself (`n_args = value.len() - 1`, which underflows —
a debug-profile panic — on an empty array); after validation the first
argument is the key and the remaining BulkStrings are the fields, which must
number `n_args - 1`. -/
def CommandHMGet.tryFrom (value : List RespFrame) : Option (Except CommandError CommandHMGet) :=
  match value.length with
  | 0 => none
  | n + 1 =>
    let nArgs := n
    match validateCommand value [nameHMGet] nArgs with
    | .error e => some (.error e)
    | .ok _ =>
      match (extractArgs value 1).head? with
      | some (.bulkString key) =>
        match collectHMGetFields ((extractArgs value 1).drop 1) with
        | none => none
        | some fs =>
          if fs.length ≠ nArgs - 1 then some (.error .invalidCommandArguments)
          else if isValidUtf8 key then some (.ok ⟨key, fs⟩)
          else some (.error .fromUtf8Error)
      | _ => some (.error .invalidCommandArguments)

/-- `TryFrom<RespArray> for Command`: dispatch on the raw bytes of the first
element when it is a BulkString (the byte-literal match arms `b"get"`,
`b"set"`, ... are all lowercase and the bytes are compared without
lowercasing); any unmatched name falls to `CommandUnknown`. A missing first
element (empty array) or a non-BulkString first element hits the `todo!()`
arm, a panic, modelled by `none`. -/
def Command.tryFrom (value : List RespFrame) : Option (Except CommandError Command) :=
  match value.head? with
  | some (.bulkString cmd) =>
    if cmd = nameGet then some ((CommandGet.tryFrom value).map .get)
    else if cmd = nameSet then some ((CommandSet.tryFrom value).map .set)
    else if cmd = nameHGet then some ((CommandHGet.tryFrom value).map .hget)
    else if cmd = nameHSet then some ((CommandHSet.tryFrom value).map .hset)
    else if cmd = nameHGetAll then some ((CommandHGetAll.tryFrom value).map .hgetall)
    else if cmd = nameEcho then some ((CommandEcho.tryFrom value).map .echo)
    else some (.ok .unknown)
  | _ => none

/-- Lookup in an association list: the unique entry for a key, if present
(models `DashMap::get`). -/
def assocGet : List (Bytes × α) → Bytes → Option α
  | [], _ => none
  | (k1, v1) :: rest, k => if k = k1 then some v1 else assocGet rest k

/-- Insert-or-overwrite in an association list: replace the entry in place if
the key exists, append otherwise (models `DashMap::insert`; `DashMap`
iteration order is unspecified, so any deterministic order is a valid
refinement). -/
def assocInsert : List (Bytes × α) → Bytes → α → List (Bytes × α)
  | [], k, v => [(k, v)]
  | (k1, v1) :: rest, k, v =>
    if k = k1 then (k, v) :: rest else (k1, v1) :: assocInsert rest k v

/-- The `Backend`: the top-level `map: DashMap<String, RespFrame>` and the
hash-of-hashes `hmap: DashMap<String, DashMap<String, RespFrame>>`, each
modelled as an association list keyed by the string's UTF-8 bytes. -/
structure Backend where
  map : List (Bytes × RespFrame)
  hmap : List (Bytes × List (Bytes × RespFrame))

/-- `Backend::new()`. -/
def Backend.new : Backend := ⟨[], []⟩

/-- `Backend::get`: clone of the stored frame, if any. -/
def Backend.get (b : Backend) (key : Bytes) : Option RespFrame :=
  assocGet b.map key

/-- `Backend::set`: unconditional overwrite of the top-level entry. -/
def Backend.set (b : Backend) (key : Bytes) (v : RespFrame) : Backend :=
  { b with map := assocInsert b.map key v }

/-- `Backend::hget`: lookup the inner map, then the field. -/
def Backend.hget (b : Backend) (key f : Bytes) : Option RespFrame :=
  (assocGet b.hmap key).bind (fun m => assocGet m f)

/-- `Backend::hset`: `entry(key).or_default()` then insert the field. -/
def Backend.hset (b : Backend) (key f : Bytes) (v : RespFrame) : Backend :=
  { b with hmap := assocInsert b.hmap key (assocInsert ((assocGet b.hmap key).getD []) f v) }

/-- `CommandExecutor for CommandGet`: the stored frame or Null; reads only. -/
def CommandGet.execute (c : CommandGet) (b : Backend) : RespFrame × Backend :=
  (match Backend.get b c.key with
   | some v => v
   | none => .null, b)

/-- `CommandExecutor for CommandSet`: store the value, answer `+OK`. -/
def CommandSet.execute (c : CommandSet) (b : Backend) : RespFrame × Backend :=
  (.simpleString okBytes, Backend.set b c.key c.value)

/-- `CommandExecutor for CommandHGet`: the stored field frame or Null. -/
def CommandHGet.execute (c : CommandHGet) (b : Backend) : RespFrame × Backend :=
  (match Backend.hget b c.key c.field1 with
   | some v => v
   | none => .null, b)

/-- `CommandExecutor for CommandHSet`: store the field, answer `+OK`. -/
def CommandHSet.execute (c : CommandHSet) (b : Backend) : RespFrame × Backend :=
  (.simpleString okBytes, Backend.hset b c.key c.field1 c.value)

/-- Stable sort by key used when `CommandHGetAll.sort` is set
(`data.sort_by(|a, b| a.0.cmp(&b.0))`). -/
def insertSortedByKey (p : Bytes × RespFrame) :
    List (Bytes × RespFrame) → List (Bytes × RespFrame)
  | [] => [p]
  | q :: rest => if bytesLt q.1 p.1 then q :: insertSortedByKey p rest else p :: q :: rest

/-- Insertion sort backing the `sort` flag of HGETALL. -/
def sortPairsByKey : List (Bytes × RespFrame) → List (Bytes × RespFrame)
  | [] => []
  | p :: rest => insertSortedByKey p (sortPairsByKey rest)

/-- `CommandExecutor for CommandHGetAll`: flatten the inner map into an
alternating field/value array (fields re-wrapped as BulkStrings), optionally
sorted; Null when the outer key is absent. -/
def CommandHGetAll.execute (c : CommandHGetAll) (b : Backend) : RespFrame × Backend :=
  (match assocGet b.hmap c.key with
   | some hm =>
     let data := if c.sort then sortPairsByKey hm else hm
     .array ((data.map (fun p => [RespFrame.bulkString p.1, p.2])).flatten)
   | none => .null, b)

/-- `CommandExecutor for CommandHMGet`: when the outer key exists, an array
aligned with the requested fields (stored frame or Null per field); when the
outer key is absent, a single Null frame. -/
def CommandHMGet.execute (c : CommandHMGet) (b : Backend) : RespFrame × Backend :=
  (match assocGet b.hmap c.key with
   | some hm =>
     .array (c.fields.map (fun f =>
       match assocGet hm f with
       | some v => v
       | none => .null))
   | none => .null, b)

/-- `CommandExecutor for CommandEcho`: the argument echoed as a BulkString. -/
def CommandEcho.execute (c : CommandEcho) (b : Backend) : RespFrame × Backend :=
  (.bulkString c.value, b)

/-- `CommandExecutor for Command` (enum dispatch); the unknown-command
fallback answers the cached `-Unknown command` simple error. -/
def Command.execute : Command → Backend → RespFrame × Backend
  | .get c, b => c.execute b
  | .set c, b => c.execute b
  | .hget c, b => c.execute b
  | .hset c, b => c.execute b
  | .hgetall c, b => c.execute b
  | .echo c, b => c.execute b
  | .unknown, b => (.simpleError unknownCommandBytes, b)

/-! ## Store lemmas -/

/-- Looking up the key just inserted yields the inserted value. -/
theorem assocGet_assocInsert_self (m : List (Bytes × α)) (k : Bytes) (v : α) :
    assocGet (assocInsert m k v) k = some v := by
  induction m with
  | nil => simp [assocInsert, assocGet]
  | cons p rest ih =>
    obtain ⟨k1, v1⟩ := p
    by_cases h : k = k1
    · simp [assocInsert, assocGet, h]
    · simp [assocInsert, assocGet, h, ih]

/-- Insertion does not disturb the binding of any other key. -/
theorem assocGet_assocInsert_ne (m : List (Bytes × α)) (k k2 : Bytes) (v : α)
    (h : k2 ≠ k) : assocGet (assocInsert m k v) k2 = assocGet m k2 := by
  induction m with
  | nil => simp [assocInsert, assocGet, h]
  | cons p rest ih =>
    obtain ⟨k1, v1⟩ := p
    by_cases h1 : k = k1
    · subst h1
      simp [assocInsert, assocGet, h]
    · simp [assocInsert, assocGet, h1, ih]

/-! ## Claim theorems -/

/-- C1 (code bug evidence): the encode/decode round trip fails on the frame
`Array [NullBulkString, BulkString "hello"]` — the very frame vector of the
repository's own `test_array_encode`. It encodes to
`*2\r\n$-1\r\n$5\r\nhello\r\n`, but decoding those bytes from a fresh buffer
returns `ParseIntError` (the null-form check compares the *whole* buffer
against `$-1\r\n`, so a null element followed by more bytes falls through to
the `usize` length parser, which rejects `-1`) instead of the original frame.
Moreover `encode` itself is partial: a BulkString payload that is not valid
UTF-8 panics in `String::from_utf8(..).unwrap()`. -/
theorem c1_roundtrip_fails :
    RespFrame.encode (.array [.nullBulkString, .bulkString [104, 101, 108, 108, 111]]) =
      some [42, 50, 13, 10, 36, 45, 49, 13, 10, 36, 53, 13, 10,
            104, 101, 108, 108, 111, 13, 10] ∧
    RespFrame.decode [42, 50, 13, 10, 36, 45, 49, 13, 10, 36, 53, 13, 10,
                      104, 101, 108, 108, 111, 13, 10] =
      .err .parseIntError [36, 45, 49, 13, 10, 36, 53, 13, 10,
                           104, 101, 108, 108, 111, 13, 10] ∧
    RespFrame.encode (.bulkString [255]) = none :=
  ⟨rfl, rfl, rfl⟩

/-- C2 (counterexample): a buffer that *begins* with `$-1\r\n` but carries one
further byte (`X`) does not decode to the null bulk-string variant with five
bytes consumed, contradicting the claim. -/
theorem c2_counterexample_trailing_byte :
    RespFrame.decode [36, 45, 49, 13, 10, 88] ≠
      DResult.ok RespFrame.nullBulkString [88] := by
  intro hEq
  have hv : RespFrame.decode [36, 45, 49, 13, 10, 88] =
      .err .parseIntError [36, 45, 49, 13, 10, 88] := rfl
  rw [hv] at hEq
  exact DResult.noConfusion hEq

/-- C2 (amended): decoding returns the null variant, consuming all five
bytes, exactly when the buffer consists of the five bytes `$-1\r\n` (resp.
`*-1\r\n`) and nothing else; whenever any bytes follow them, the whole-buffer
equality check fails and decoding falls through to the non-null path, whose
`usize` length parser rejects `-1`, returning `ParseIntError` and consuming
nothing. -/
theorem c2_amended_null_decode (rest : Bytes) :
    (RespFrame.decode nullBulkStringBytes = .ok .nullBulkString [] ∧
     RespFrame.decode nullArrayBytes = .ok .nullArray []) ∧
    (rest ≠ [] →
      RespFrame.decode (nullBulkStringBytes ++ rest) =
        .err .parseIntError (nullBulkStringBytes ++ rest) ∧
      RespFrame.decode (nullArrayBytes ++ rest) =
        .err .parseIntError (nullArrayBytes ++ rest)) := by
  refine ⟨⟨rfl, rfl⟩, ?_⟩
  intro h
  match rest with
  | [] => exact absurd rfl h
  | x :: xs => exact ⟨rfl, rfl⟩

/-- C2 (witness): the amended theorem applied at the concrete suffix `X`. -/
theorem c2_amended_null_decode_witness :
    RespFrame.decode (nullBulkStringBytes ++ [88]) =
      .err .parseIntError (nullBulkStringBytes ++ [88]) :=
  ((c2_amended_null_decode [88]).2 (by decide)).1

/-- C3 (code bug evidence): with the aggregate header `*2\r\n` and the first
of two children fully buffered, the top-level array decode returns
`NotComplete` — but leaves the buffer empty, having consumed all sixteen
buffered bytes, instead of leaving it unchanged as the claim requires. -/
theorem c3_notcomplete_consumes_buffer :
    RespArray.decode [42, 50, 13, 10, 36, 53, 13, 10, 104, 101, 108, 108, 111, 13, 10] =
      .err .notComplete [] ∧
    ([] : Bytes) ≠ [42, 50, 13, 10, 36, 53, 13, 10, 104, 101, 108, 108, 111, 13, 10] :=
  ⟨rfl, by decide⟩

/-- C4 (code bug evidence): a `$` or `!` blob whose header length parses to
`L = 5` but whose buffer holds only three payload bytes does not return
`NotComplete`: the decoder calls `split_to(L + 2)` without checking that the
bytes are available, which panics. -/
theorem c4_short_blob_panics :
    RespFrame.decode [36, 53, 13, 10, 104, 101, 108] = .panic ∧
    RespFrame.decode [33, 53, 13, 10, 104, 101, 108] = .panic :=
  ⟨rfl, rfl⟩

/-- C5 (counterexample): the spelling `GET` does not convert to the same
typed command as the spelling `get` — the former becomes the
unknown-command fallback, the latter the GET command. -/
theorem c5_counterexample_uppercase_get :
    Command.tryFrom [.bulkString [71, 69, 84], .bulkString [107, 101, 121]] ≠
      Command.tryFrom [.bulkString nameGet, .bulkString [107, 101, 121]] := by
  intro hEq
  have h1 : Command.tryFrom [.bulkString [71, 69, 84], .bulkString [107, 101, 121]] =
      some (.ok .unknown) := rfl
  have h2 : Command.tryFrom [.bulkString nameGet, .bulkString [107, 101, 121]] =
      some (.ok (.get ⟨[107, 101, 121]⟩)) := rfl
  rw [h1, h2] at hEq
  injection hEq with hEq2
  injection hEq2 with hEq3
  exact Command.noConfusion hEq3

/-- C5 (amended): dispatch compares the raw bytes of the first element
against the lowercase byte literals, so for every supported command name —
`get`, `set`, `hget`, `hset`, `hgetall`, `echo` — and every ASCII
capitalization `s` of that name (`asciiLowercase s = n`), exactly the
all-lowercase spelling dispatches into that command's typed conversion, and
every other capitalization converts to the unknown-command fallback, for any
argument frames whatsoever. (The ASCII-lowercased comparison exists only
inside `validate_command`, which is reached only after an exact lowercase
match.) -/
theorem c5_amended_lowercase_only_dispatch (s : Bytes) (args : List RespFrame) (n : Bytes)
    (hn : n = nameGet ∨ n = nameSet ∨ n = nameHGet ∨ n = nameHSet ∨
          n = nameHGetAll ∨ n = nameEcho)
    (h : asciiLowercase s = n) :
    (s ≠ n → Command.tryFrom (.bulkString s :: args) = some (.ok .unknown)) ∧
    (s = nameGet → Command.tryFrom (.bulkString s :: args) =
      some ((CommandGet.tryFrom (.bulkString s :: args)).map .get)) ∧
    (s = nameSet → Command.tryFrom (.bulkString s :: args) =
      some ((CommandSet.tryFrom (.bulkString s :: args)).map .set)) ∧
    (s = nameHGet → Command.tryFrom (.bulkString s :: args) =
      some ((CommandHGet.tryFrom (.bulkString s :: args)).map .hget)) ∧
    (s = nameHSet → Command.tryFrom (.bulkString s :: args) =
      some ((CommandHSet.tryFrom (.bulkString s :: args)).map .hset)) ∧
    (s = nameHGetAll → Command.tryFrom (.bulkString s :: args) =
      some ((CommandHGetAll.tryFrom (.bulkString s :: args)).map .hgetall)) ∧
    (s = nameEcho → Command.tryFrom (.bulkString s :: args) =
      some ((CommandEcho.tryFrom (.bulkString s :: args)).map .echo)) := by
  have key : ∀ m : Bytes, asciiLowercase m = m → s ≠ n → s = m → False := by
    intro m hm hs e
    rw [e, hm] at h
    exact hs (e.trans h)
  refine ⟨?_, ?_, ?_, ?_, ?_, ?_, ?_⟩
  · intro hs
    have h1 : s ≠ nameGet := key nameGet (by decide) hs
    have h2 : s ≠ nameSet := key nameSet (by decide) hs
    have h3 : s ≠ nameHGet := key nameHGet (by decide) hs
    have h4 : s ≠ nameHSet := key nameHSet (by decide) hs
    have h5 : s ≠ nameHGetAll := key nameHGetAll (by decide) hs
    have h6 : s ≠ nameEcho := key nameEcho (by decide) hs
    simp [Command.tryFrom, h1, h2, h3, h4, h5, h6]
  · intro e; subst e; rfl
  · intro e; subst e; rfl
  · intro e; subst e; rfl
  · intro e; subst e; rfl
  · intro e; subst e; rfl
  · intro e; subst e; rfl

/-- C5 (witness): the amended theorem applied at the capitalization `GET` of
the supported name `get`, with a concrete key argument. -/
theorem c5_amended_witness :
    Command.tryFrom [.bulkString [71, 69, 84], .bulkString [107, 101, 121]] =
      some (.ok .unknown) :=
  (c5_amended_lowercase_only_dispatch [71, 69, 84] [.bulkString [107, 101, 121]] nameGet
    (Or.inl rfl) (by decide)).1 (by decide)

/-- C6 (code bug evidence): the array `hmget map a` converts to the
unknown-command fallback — the `Command` enum has no HMGet variant and the
dispatch match has no `hmget` arm — even though `CommandHMGet` itself exists:
its own conversion accepts `hmget map a z` and its executor returns the
field-aligned array (stored value for `a`, Null for the missing `z`). The
fallback the dispatcher produces instead answers `-Unknown command`. -/
theorem c6_hmget_dispatches_to_unknown :
    Command.tryFrom [.bulkString nameHMGet, .bulkString [109, 97, 112], .bulkString [97]] =
      some (.ok .unknown) ∧
    CommandHMGet.tryFrom [.bulkString nameHMGet, .bulkString [109, 97, 112],
        .bulkString [97], .bulkString [122]] =
      some (.ok ⟨[109, 97, 112], [[97], [122]]⟩) ∧
    CommandHMGet.execute ⟨[109, 97, 112], [[97], [122]]⟩
        ⟨[], [([109, 97, 112], [([97], .bulkString [49])])]⟩ =
      (.array [.bulkString [49], .null],
       ⟨[], [([109, 97, 112], [([97], .bulkString [49])])]⟩) ∧
    Command.execute .unknown ⟨[], [([109, 97, 112], [([97], .bulkString [49])])]⟩ =
      (.simpleError unknownCommandBytes,
       ⟨[], [([109, 97, 112], [([97], .bulkString [49])])]⟩) :=
  ⟨rfl, rfl, rfl, rfl⟩

/-- C7 (code bug evidence): converting an empty array, or an array whose
first element is not a BulkString, hits the `todo!()` arm and panics instead
of returning `InvalidCommand`. (Arity errors on dispatched commands do reach
`InvalidCommandArguments`, as the third conjunct shows.) -/
theorem c7_conversion_panics_on_bad_position_zero :
    Command.tryFrom [] = none ∧
    Command.tryFrom [.integer 1] = none ∧
    Command.tryFrom [.bulkString nameGet] = some (.error .invalidCommandArguments) :=
  ⟨rfl, rfl, rfl⟩

/-- C8 (code bug evidence): encoding is not total — a BulkString or BulkError
frame whose payload is not valid UTF-8 panics in
`String::from_utf8(..).unwrap()` instead of producing the length-prefixed
binary-safe encoding. -/
theorem c8_encode_panics_on_non_utf8_payload :
    RespFrame.encode (.bulkString [255, 254]) = none ∧
    RespFrame.encode (.bulkError [195]) = none :=
  ⟨rfl, rfl⟩

/-- C9 (confirmed): for every key, value frame and store, executing
`SET k v` answers the simple string `OK` and stores `v` so that a subsequent
`GET k` on the resulting store answers a frame equal to `v`. -/
theorem c9_set_then_get_returns_value (k : Bytes) (v : RespFrame) (b : Backend) :
    (CommandSet.execute ⟨k, v⟩ b).1 = .simpleString okBytes ∧
    (CommandGet.execute ⟨k⟩ (CommandSet.execute ⟨k, v⟩ b).2).1 = v := by
  refine ⟨rfl, ?_⟩
  simp [CommandGet.execute, CommandSet.execute, Backend.get, Backend.set,
        assocGet_assocInsert_self]

/-- C10 (confirmed): executing `SET k v` mutates only the top-level entry for
`k` — every other key reads the same as before, the hash-of-hashes table is
unchanged (hence every `hget` result is preserved) — and executing `GET`
leaves the store untouched. -/
theorem c10_set_touches_only_its_key (k k2 kh fh : Bytes) (v : RespFrame) (b : Backend)
    (h : k2 ≠ k) :
    Backend.get (CommandSet.execute ⟨k, v⟩ b).2 k2 = Backend.get b k2 ∧
    (CommandSet.execute ⟨k, v⟩ b).2.hmap = b.hmap ∧
    Backend.hget (CommandSet.execute ⟨k, v⟩ b).2 kh fh = Backend.hget b kh fh ∧
    (CommandGet.execute ⟨k2⟩ b).2 = b := by
  refine ⟨?_, rfl, rfl, rfl⟩
  simp [CommandSet.execute, Backend.get, Backend.set, assocGet_assocInsert_ne _ _ _ _ h]

/-- C10 (witness): the frame condition applied at concrete keys and a
concrete two-table store. -/
theorem c10_set_touches_only_its_key_witness :
    Backend.get (CommandSet.execute ⟨[97], RespFrame.null⟩
        ⟨[([98], .integer 7)], [([99], [([100], .boolean true)])]⟩).2 [98] =
      Backend.get ⟨[([98], .integer 7)], [([99], [([100], .boolean true)])]⟩ [98] ∧
    (CommandSet.execute ⟨[97], RespFrame.null⟩
        ⟨[([98], .integer 7)], [([99], [([100], .boolean true)])]⟩).2.hmap =
      Backend.hmap ⟨[([98], .integer 7)], [([99], [([100], .boolean true)])]⟩ ∧
    Backend.hget (CommandSet.execute ⟨[97], RespFrame.null⟩
        ⟨[([98], .integer 7)], [([99], [([100], .boolean true)])]⟩).2 [99] [100] =
      Backend.hget ⟨[([98], .integer 7)], [([99], [([100], .boolean true)])]⟩ [99] [100] ∧
    (CommandGet.execute ⟨[98]⟩
        ⟨[([98], .integer 7)], [([99], [([100], .boolean true)])]⟩).2 =
      ⟨[([98], .integer 7)], [([99], [([100], .boolean true)])]⟩ :=
  c10_set_touches_only_its_key [97] [98] [99] [100] .null
    ⟨[([98], .integer 7)], [([99], [([100], .boolean true)])]⟩ (by decide)
